import Mathlib

/-!
Verification development for the transport/session layer and the bulk job
orchestration engine of the `simple_salesforce` client library.

The Lean definitions below are shallow embeddings of the Python sources:

* `simple_salesforce/transport.py` (threaded transport: `Transport`)
* `simple_salesforce/_async/transport.py` (async transport: `AsyncTransport`)
* `simple_salesforce/_async/bulk.py` (bulk orchestration: `AsyncSFBulkType`)

HTTP, the login provider and the remote bulk-job server are external
collaborators; they enter the model as explicit oracle arguments (the
response(s) a request would produce, the result a login attempt would
produce), so every embedded function is pure and executable.
-/

set_option maxHeartbeats 1000000

namespace SimpleSalesforce

/-! ## Datatypes for the Sforce-Limit-Info header parser

`Transport.parse_api_usage` uses the two Python regexes

  r1 = `[^-]?api-usage=(?P<used>\d+)/(?P<tot>\d+)`          (with `re.match`)
  r2 = `.+per-app-api-usage=(?P<u>\d+)/(?P<t>\d+)\(appName=(?P<n>.+)\)`

The embedding below reproduces their matching behaviour on `List Char`:
`re.match` anchors at the start and matches a prefix only; `[^-]?` greedily
consumes one non-dash character when the remainder still matches; `.+` is
greedy, so r2 matches at the last position whose remainder parses, and the
group `(.+)` before `\)` extends to the last `)` of the remaining input;
`\d+` followed by a non-digit literal always captures the maximal digit run.
-/

/-- Payload of the `api-usage` named tuple `Usage(used, total)`. -/
structure Usage where
  used : Nat
  total : Nat
deriving DecidableEq

/-- Payload of the `per-app-api-usage` named tuple `PerAppUsage(used, total, name)`. -/
structure PerAppUsage where
  used : Nat
  total : Nat
  name : List Char
deriving DecidableEq

/-- The literal `api-usage=` of the first regex. -/
def litApiUsage : List Char := ['a', 'p', 'i', '-', 'u', 's', 'a', 'g', 'e', '=']

/-- The literal `per-app-api-usage=` of the second regex. -/
def litPerApp : List Char :=
  ['p', 'e', 'r', '-', 'a', 'p', 'p', '-', 'a', 'p', 'i', '-', 'u', 's', 'a', 'g', 'e', '=']

/-- The literal `(appName=` of the second regex. -/
def litAppName : List Char := ['(', 'a', 'p', 'p', 'N', 'a', 'm', 'e', '=']

/-- Match a literal at the front of the input and return the remainder. -/
def dropLit : List Char → List Char → Option (List Char)
  | [], s => some s
  | _ :: _, [] => none
  | p :: ps, c :: cs => if p = c then dropLit ps cs else none

/-- Numeric value of a digit run, as Python `int` computes it. -/
def digitsToNat (ds : List Char) : Nat :=
  ds.foldl (fun a c => a * 10 + (c.toNat - 48)) 0

/-- The part `api-usage=(\d+)/(\d+)` of regex r1, anchored at the front;
greedy `\d+` before a non-digit literal captures the maximal digit run. -/
def parsePrimaryCore (s : List Char) : Option Usage :=
  match dropLit litApiUsage s with
  | none => none
  | some r0 =>
    let u := r0.takeWhile Char.isDigit
    let r1 := r0.dropWhile Char.isDigit
    if u.isEmpty then none else
    match dropLit ['/'] r1 with
    | none => none
    | some r2 =>
      let v := r2.takeWhile Char.isDigit
      if v.isEmpty then none else some ⟨digitsToNat u, digitsToNat v⟩

/-- Full regex r1 `[^-]?api-usage=(\d+)/(\d+)` under `re.match`: the greedy
optional class first tries to consume one non-dash character. -/
def parsePrimary (s : List Char) : Option Usage :=
  match s with
  | [] => none
  | c :: rest =>
    if c = '-' then parsePrimaryCore s
    else
      match parsePrimaryCore rest with
      | some r => some r
      | none => parsePrimaryCore s

/-- Group `(.+)\)` at the end of regex r2: the name is everything before the
last `)` of the input (at least one character); input after that `)` is
ignored because `re.match` needs no full match. -/
def nameFromTail (r : List Char) : Option (List Char) :=
  match r.reverse.dropWhile (fun c => c ≠ ')') with
  | [] => none
  | _ :: restRev => if restRev.isEmpty then none else some restRev.reverse

/-- The part of regex r2 after `.+`, anchored at the front:
`per-app-api-usage=(\d+)/(\d+)\(appName=(.+)\)`. -/
def perAppAux (s : List Char) : Option PerAppUsage :=
  match dropLit litPerApp s with
  | none => none
  | some r0 =>
    let u := r0.takeWhile Char.isDigit
    let r1 := r0.dropWhile Char.isDigit
    if u.isEmpty then none else
    match dropLit ['/'] r1 with
    | none => none
    | some r2 =>
      let v := r2.takeWhile Char.isDigit
      let r3 := r2.dropWhile Char.isDigit
      if v.isEmpty then none else
      match dropLit litAppName r3 with
      | none => none
      | some r4 =>
        match nameFromTail r4 with
        | none => none
        | some nm => some ⟨digitsToNat u, digitsToNat v, nm⟩

/-- Leading greedy `.+` of regex r2: at least one character is consumed and
the deepest (that is, last) matching position wins. -/
def perAppSearch : List Char → Option PerAppUsage
  | [] => none
  | _ :: rest =>
    match perAppSearch rest with
    | some r => some r
    | none => perAppAux rest

/-- `Transport.parse_api_usage` on the character list of the header value.
The result dictionary holds the key `api-usage` (first component) and the
key `per-app-api-usage` (second component) exactly when the corresponding
regex matched. -/
def parseLimitInfo (s : List Char) : Option Usage × Option PerAppUsage :=
  (parsePrimary s, perAppSearch s)

/-- `Transport.parse_api_usage` on the header string. -/
def parse_api_usage (s : String) : Option Usage × Option PerAppUsage :=
  parseLimitInfo s.toList

/-- Rendering of a grammar-conforming primary clause `api-usage=<u>/<v>`. -/
def primaryStr (u v : List Char) : List Char := litApiUsage ++ u ++ '/' :: v

/-- Rendering of a grammar-conforming per-app clause
`per-app-api-usage=<u2>/<v2>(appName=<n>)`. -/
def perAppClause (u2 v2 n : List Char) : List Char :=
  litPerApp ++ u2 ++ '/' :: (v2 ++ litAppName ++ (n ++ [')']))

/-! ## Error taxonomy and classifier

`Transport.exception_handler` (and the identical `AsyncTransport` version)
classifies any response with status ≥ 300 through `exc_map` and raises the
corresponding exception class with arguments
`(result.url, result.status_code, name, response_content)` where
`response_content` is the parsed JSON body, or the raw text when JSON
parsing fails.

The exception classes live in `simple_salesforce/exceptions.py`, which is
not among the analyzed sources. Modelled from the spec: every produced
error is a record carrying its kind together with the request URL, the
status code, the collaborating object/job name and the response body, all
recoverable by the caller. -/

/-- Error kinds of the taxonomy (one per exception class). -/
inductive ErrKind where
  | moreThanOneRecord
  | malformedRequest
  | expiredSession
  | refusedRequest
  | resourceNotFound
  | generalError
  | authenticationFailed
deriving DecidableEq

/-- Response body as the classifier records it: parsed JSON (kept abstract
as its source text); the raw text (threaded handler, where `requests`'
`result.text` is a property yielding the body); or the un-awaited bound
method object that the async handler stores — aiohttp's `result.text` is a
coroutine *function*, so `response_content = result.text` in
`AsyncTransport.exception_handler` captures the method itself, not the
body text. -/
inductive RespContent where
  | json (v : String)
  | text (v : String)
  | textMethod
deriving DecidableEq

/-- An HTTP response as the transport consumes it: status code, request
URL, JSON body (`none` when the body does not decode), raw text body and
the optional `Sforce-Limit-Info` header value. -/
structure Response where
  status : Nat
  url : String
  jsonBody : Option String
  textBody : String
  limitInfo : Option String
deriving DecidableEq

/-- `result.json()` with the raw-text fallback of `exception_handler`. -/
def contentOf (r : Response) : RespContent :=
  match r.jsonBody with
  | some j => .json j
  | none => .text r.textBody

/-- Modelled from the spec: the payload every raised Salesforce error
carries (exceptions.py is not among the analyzed sources). -/
structure SfError where
  kind : ErrKind
  url : String
  status : Nat
  resource_name : String
  content : RespContent
deriving DecidableEq

/-- The `exc_map` dictionary of `exception_handler`. -/
def exc_map : List (Nat × ErrKind) :=
  [(300, .moreThanOneRecord), (400, .malformedRequest), (401, .expiredSession),
   (403, .refusedRequest), (404, .resourceNotFound)]

/-- `Transport.exception_handler`: the error it raises for a given response
and context name (`exc_map.get(result.status_code, SalesforceGeneralError)`),
carrying `result.json()` or, when decoding fails, `result.text` — a
property of the `requests` response, i.e. the body text. -/
def exception_handler (result : Response) (name : String) : SfError :=
  { kind := (exc_map.lookup result.status).getD .generalError
  , url := result.url
  , status := result.status
  , resource_name := name
  , content := contentOf result }

/-- The body `AsyncTransport.exception_handler` records: `await result.json()`
when it succeeds; otherwise `response_content = result.text` stores aiohttp's
un-awaited `text` method object, not the body text. -/
def asyncContentOf (r : Response) : RespContent :=
  match r.jsonBody with
  | some j => .json j
  | none => .textMethod

/-- `AsyncTransport.exception_handler`: same `exc_map` routing and the same
`(url, status, name, response_content)` constructor call, but with the
async fallback body of `asyncContentOf`. -/
def async_exception_handler (result : Response) (name : String) : SfError :=
  { kind := (exc_map.lookup result.status).getD .generalError
  , url := result.url
  , status := result.status
  , resource_name := name
  , content := asyncContentOf result }

/-- The fixed status → kind mapping in the words of the spec
(`300→MoreThanOneRecord, 400→MalformedRequest, 401→ExpiredSession,
403→RefusedRequest, 404→ResourceNotFound`, anything else `GeneralError`);
stated independently of `exc_map` so the classifier can be compared
against it. -/
def classifyKindSpec (status : Nat) : ErrKind :=
  if status = 300 then .moreThanOneRecord
  else if status = 400 then .malformedRequest
  else if status = 401 then .expiredSession
  else if status = 403 then .refusedRequest
  else if status = 404 then .resourceNotFound
  else .generalError

/-! ## Threaded transport (`simple_salesforce/transport.py`)

State of a `Transport` instance: `session_id` and `sf_instance` (both
`None` until a login succeeds), the constructor-initialized and never-read
`self._exp = 0`, and the `api_usage` dictionary. The login provider
`SalesforceLogin` (login.py, not among the analyzed sources) is an oracle
argument of type `Except SfError (String × String)`; modelled from the
spec: it returns `(sessionId, instanceHost)` or fails with an
`AuthenticationFailed` error. -/

/-- Dispatcher events: issuing the HTTP request, and invoking the login
provider to renew the session. -/
inductive TEv where
  | send
  | renew
deriving DecidableEq

structure SyncState where
  session_id : Option String
  sf_instance : Option String
  _exp : Nat
  api_usage : Option Usage × Option PerAppUsage
deriving DecidableEq

/-- `Transport.refresh_session`: tuple-assigns the login result. When the
login provider raises, the right-hand side never gets assigned, so the
stored state is returned untouched together with the error. -/
def sync_refresh_session (st : SyncState) (login : Except SfError (String × String)) :
    SyncState × Option SfError :=
  match login with
  | .ok (sid, inst) => ({ st with session_id := some sid, sf_instance := some inst }, none)
  | .error e => (st, some e)

/-- The `Sforce-Limit-Info` block at the end of `_api_call`: Python's
`if sforce_limit_info:` skips both a missing header and an empty string. -/
def updateUsage (st : SyncState) (r : Response) : SyncState :=
  match r.limitInfo with
  | some s => if s = "" then st else { st with api_usage := parse_api_usage s }
  | none => st

/-- `Transport._api_call`. The same logical request is issued at most
twice; `r1` is the response to the first send and `r2` the response the
replay would receive. A response with status ≥ 300 goes through
`exception_handler`; only `SalesforceExpiredSession` is caught, in which
case the session is refreshed (oracle `login`) and the request replayed
once, the retry's classified error propagating unconditionally. The
returned trace records sends and renewals in order. -/
def sync_api_call (st : SyncState) (login : Except SfError (String × String))
    (r1 r2 : Response) : Except SfError Response × SyncState × List TEv :=
  if 300 ≤ r1.status then
    if (exception_handler r1 "").kind = .expiredSession then
      match sync_refresh_session st login with
      | (st1, some e) => (.error e, st1, [.send, .renew])
      | (st1, none) =>
        if 300 ≤ r2.status then
          (.error (exception_handler r2 ""), st1, [.send, .renew, .send])
        else (.ok r2, updateUsage st1 r2, [.send, .renew, .send])
    else (.error (exception_handler r1 ""), st, [.send])
  else (.ok r1, updateUsage st r1, [.send])

/-! ## Async transport (`simple_salesforce/_async/transport.py`)

State of an `AsyncTransport`: session fields, the expiry timestamp
`self.exp` (initialized to construction time: the never-authenticated
client is expired from the start), and the flag recording whether
`self.auth_kwargs` still holds its `'session'` entry (the constructor puts
it there; `refresh_session` executes `del self.auth_kwargs['session']`).
Clock values are naturals; `AsyncSalesforceLogin` (login.py, not among the
analyzed sources) is an oracle; modelled from the spec: it returns
`(sessionId, instanceHost, expiresInSeconds)` or fails with an
`AuthenticationFailed` error. -/

/-- Python-level outcome of an async transport operation: a raised
Salesforce error, or the `KeyError` that `del` raises on a missing key. -/
inductive PyErr where
  | sf (e : SfError)
  | keyError
deriving DecidableEq

structure AsyncState where
  session_id : Option String
  sf_instance : Option String
  exp : Nat
  hasSessionKwarg : Bool
  api_usage : Option Usage × Option PerAppUsage
deriving DecidableEq

/-- `AsyncTransport.refresh_session`. First `del self.auth_kwargs['session']`:
on a missing key this raises `KeyError` before the login provider is ever
invoked; otherwise the entry is removed (visible even if the login then
fails) and the login result is assigned, with
`self.exp = utcnow() + timedelta(seconds=session_duration)`. The boolean
result records whether the login provider was invoked. -/
def async_refresh_session (st : AsyncState)
    (login : Except SfError (String × String × Nat)) (now : Nat) :
    AsyncState × Option PyErr × Bool :=
  if st.hasSessionKwarg then
    let st1 : AsyncState := { st with hasSessionKwarg := false }
    match login with
    | .ok (sid, inst, dur) =>
      ({ st1 with session_id := some sid, sf_instance := some inst, exp := now + dur },
       none, true)
    | .error e => (st1, some (.sf e), true)
  else (st, some .keyError, false)

/-- The `Sforce-Limit-Info` block at the end of `AsyncTransport._api_call`. -/
def updateUsageA (st : AsyncState) (r : Response) : AsyncState :=
  match r.limitInfo with
  | some s => if s = "" then st else { st with api_usage := parse_api_usage s }
  | none => st

/-- `AsyncTransport._api_call`: refresh if `utcnow() >= self.exp`, then send
once; any response with status ≥ 300 raises its classified error (via the
async handler) immediately — there is no catch and no replay in the async
transport. -/
def async_api_call (st : AsyncState) (login : Except SfError (String × String × Nat))
    (now : Nat) (r1 : Response) : Except PyErr Response × AsyncState × List TEv :=
  if st.exp ≤ now then
    match async_refresh_session st login now with
    | (st1, some e, _) => (.error e, st1, [.renew])
    | (st1, none, _) =>
      if 300 ≤ r1.status then
        (.error (.sf (async_exception_handler r1 "")), st1, [.renew, .send])
      else (.ok r1, updateUsageA st1 r1, [.renew, .send])
  else
    if 300 ≤ r1.status then (.error (.sf (async_exception_handler r1 "")), st, [.send])
    else (.ok r1, updateUsageA st r1, [.send])

/-- `AsyncTransport.call`: checks `utcnow() >= self.exp` and refreshes (with
login oracle `l1`), then delegates to `_api_call`, which performs the same
check again (with login oracle `l2` for that second potential refresh). -/
def async_call (st : AsyncState) (l1 l2 : Except SfError (String × String × Nat))
    (now : Nat) (r1 : Response) : Except PyErr Response × AsyncState × List TEv :=
  if st.exp ≤ now then
    match async_refresh_session st l1 now with
    | (st1, some e, _) => (.error e, st1, [.renew])
    | (st1, none, _) =>
      let out := async_api_call st1 l2 now r1
      (out.1, out.2.1, .renew :: out.2.2)
  else async_api_call st l2 now r1

/-! ## Bulk orchestration (`simple_salesforce/_async/bulk.py`)

`AsyncSFBulkType._bulk_operation` drives the bulk-job protocol against the
remote bulk server. The embedding records the sequence of server requests
actually issued as a trace of `BulkEv` events, together with the outcome:
the assembled result list, or the Python exception the call raises. The
remote server's contribution — how many polls the query batch needs before
a terminal state, which result-set identifiers it yields and the rows each
identifier fetch returns — is a `BulkOracle` argument. Record maps stay
abstract (`α` for submitted records, `β` for returned rows).

Two control-flow facts of the mutation branch are modelled faithfully:

* `worker` is an `async def`, but the branch runs it through
  `concurrent.futures.ThreadPoolExecutor.map`. Each thread's call
  `self.worker(batch, operation=...)` merely constructs a coroutine object
  without executing the body, so no `_get_batch` poll and no
  `_get_batch_results` fetch ever happens; draining the comprehension
  `[x for sublist in list_of_results for i in sublist for x in i]` then
  raises `TypeError` (`'coroutine' object is not iterable`) at the first
  batch, before the `_close_job` line. Only when there are zero batches
  does the drain succeed (over an empty iterator), the job get closed and
  the empty result return.
* the slice expression divides by the (clamped) batch size after
  `_create_job` has already run, so `batch_size = 0` raises
  `ZeroDivisionError` with exactly one request issued. -/

/-- The job-creation payload assembled by `AsyncSFBulkType._create_job`:
`externalIdFieldName` is present (outer `some`) exactly when the operation
is `upsert`, and then carries whatever value was passed (inner option). -/
structure JobPayload where
  operation : String
  objectName : String
  concurrencyMode : Nat
  contentType : String
  externalIdFieldName : Option (Option String)
deriving DecidableEq

def mkJobPayload (operation objectName : String) (use_serial : Bool)
    (external_id_field : Option String) : JobPayload :=
  { operation := operation
  , objectName := objectName
  , concurrencyMode := if use_serial then 1 else 0
  , contentType := "JSON"
  , externalIdFieldName := if operation = "upsert" then some external_id_field else none }

/-- Requests `_bulk_operation` issues against the bulk server, in order. -/
inductive BulkEv (α : Type) where
  | createJob (p : JobPayload)
  | addBatchRecords (chunk : List α)
  | addBatchQuery (q : String)
  | closeJob
  | pollBatch (i : Nat)
  | fetchResults (i : Nat)
  | fetchResultSet (i : Nat) (rid : String)
deriving DecidableEq

/-- The bulk server as an oracle. `pendingPolls i` is how many times batch
`i` reports a non-terminal state before the next `_get_batch` sees a
terminal one (only the query branch ever polls); `queryIds`/`idResult` are
the result-set identifiers of a query batch and the rows each identifier
yields. -/
structure BulkOracle (β : Type) where
  pendingPolls : Nat → Nat
  queryIds : List String
  idResult : String → List β

/-- The chunking expression of `_bulk_operation`:
`[data[i*bs:(i+1)*bs] for i in range(len(data)//bs + 1)]` with the Python
truthiness filter `if i` discarding empty slices. -/
def codeChunks (bs : Nat) (data : List α) : List (List α) :=
  (((List.range (data.length / bs + 1)).map
      fun i => (data.drop (i * bs)).take bs).filter fun c => !c.isEmpty)

/-- The batch-size clamp at the top of the mutation branch:
`if len(data) >= 10000 and batch_size > 10000: batch_size = 10000`. -/
def effBatchSize (n bs : Nat) : Nat := if 10000 ≤ n ∧ 10000 < bs then 10000 else bs

/-- Python exceptions `_bulk_operation` itself raises: the `TypeError`
from iterating a never-awaited `worker` coroutine while draining
`pool.map`, and the `ZeroDivisionError` from `len(data) // batch_size`
with a zero batch size. -/
inductive PyFault where
  | typeError
  | zeroDivisionError
deriving DecidableEq

/-- `AsyncSFBulkType._bulk_operation`. The query branch creates the job,
adds the single query-string batch, closes the job, polls that batch to a
terminal state and fetches each returned result-set identifier in server
order. The mutation branch creates the job and then evaluates the slice
expression: with a zero (clamped) batch size this raises
`ZeroDivisionError` at once; otherwise one batch per nonempty chunk is
submitted, after which draining `pool.map` raises `TypeError` as soon as
there is at least one batch — the `worker` coroutines are never awaited,
so no poll, no result fetch and no `_close_job` request happens. Only a
batch-free (empty-input) mutation call reaches `_close_job` and returns
its (empty) result list. -/
def bulk_operation (operation objectName : String) (data : List α) (queryStr : String)
    (use_serial : Bool) (external_id_field : Option String) (batch_size : Nat)
    (oracle : BulkOracle β) : List (BulkEv α) × Except PyFault (List β) :=
  if operation = "query" ∨ operation = "queryAll" then
    ([.createJob (mkJobPayload operation objectName use_serial external_id_field),
      .addBatchQuery queryStr, .closeJob]
       ++ List.replicate (oracle.pendingPolls 0 + 1) (.pollBatch 0)
       ++ [.fetchResults 0]
       ++ oracle.queryIds.map (fun rid => .fetchResultSet 0 rid),
     .ok ((oracle.queryIds.map oracle.idResult).flatten))
  else
    let bs := effBatchSize data.length batch_size
    if bs = 0 then
      ([.createJob (mkJobPayload operation objectName use_serial external_id_field)],
       .error .zeroDivisionError)
    else
      match codeChunks bs data with
      | [] =>
        ([.createJob (mkJobPayload operation objectName use_serial external_id_field),
          .closeJob],
         .ok [])
      | c :: cs =>
        ([.createJob (mkJobPayload operation objectName use_serial external_id_field)]
           ++ ((c :: cs).map fun ch => .addBatchRecords ch),
         .error .typeError)

/-- `AsyncSFBulkType.insert`. -/
def bulk_insert (objectName : String) (data : List α) (batch_size : Nat)
    (use_serial : Bool) (oracle : BulkOracle β) :
    List (BulkEv α) × Except PyFault (List β) :=
  bulk_operation "insert" objectName data "" use_serial none batch_size oracle

/-- `AsyncSFBulkType.update`. -/
def bulk_update (objectName : String) (data : List α) (batch_size : Nat)
    (use_serial : Bool) (oracle : BulkOracle β) :
    List (BulkEv α) × Except PyFault (List β) :=
  bulk_operation "update" objectName data "" use_serial none batch_size oracle

/-- `AsyncSFBulkType.delete`. -/
def bulk_delete (objectName : String) (data : List α) (batch_size : Nat)
    (use_serial : Bool) (oracle : BulkOracle β) :
    List (BulkEv α) × Except PyFault (List β) :=
  bulk_operation "delete" objectName data "" use_serial none batch_size oracle

/-- `AsyncSFBulkType.hard_delete`. -/
def bulk_hard_delete (objectName : String) (data : List α) (batch_size : Nat)
    (use_serial : Bool) (oracle : BulkOracle β) :
    List (BulkEv α) × Except PyFault (List β) :=
  bulk_operation "hardDelete" objectName data "" use_serial none batch_size oracle

/-- Caller-side error for a Python call that does not bind its required
positional parameters: `TypeError: missing required positional argument`
(the spec's `ConfigurationError` for upsert's missing external id field). -/
inductive CallErr where
  | missingRequiredArgument
deriving DecidableEq

/-- `AsyncSFBulkType.upsert`: `external_id_field` is a required positional
parameter, so a call that omits it (modelled as `none`) fails at call
binding, before any network request; otherwise `_bulk_operation` runs with
`operation='upsert'`. -/
def bulk_upsert (objectName : String) (data : List α) (external_id_field : Option String)
    (batch_size : Nat) (use_serial : Bool) (oracle : BulkOracle β) :
    Except CallErr (List (BulkEv α) × Except PyFault (List β)) :=
  match external_id_field with
  | none => .error .missingRequiredArgument
  | some e => .ok (bulk_operation "upsert" objectName data "" use_serial (some e) batch_size oracle)

/-- Fuel-driven worker for `chunkList` (structural recursion on the fuel so
the function reduces definitionally). -/
def chunkListFuel : Nat → Nat → List α → List (List α)
  | _, _, [] => []
  | 0, _, _ :: _ => []
  | _ + 1, 0, _ :: _ => []
  | fuel + 1, bs + 1, x :: xs =>
    (x :: xs).take (bs + 1) :: chunkListFuel fuel (bs + 1) (xs.drop bs)

/-- Canonical in-order partition of a list into chunks of `bs` elements
(last chunk possibly shorter); the reference shape the code's chunking
expression is compared against. `chunkList 0 l = []` by convention. -/
def chunkList (bs : Nat) (l : List α) : List (List α) := chunkListFuel l.length bs l

/-- Ceiling division on naturals. -/
def ceilDiv (n bs : Nat) : Nat := (n + bs - 1) / bs

/-- Projection selecting batch-submission events from a bulk trace. -/
def batchOf : BulkEv α → Option (List α)
  | .addBatchRecords c => some c
  | _ => none

/-! ## Concrete fixtures used by closed counterexample/witness statements -/

/-- A 200 response with no rate-limit header. -/
def fx200 : Response :=
  { status := 200, url := "https://na1/services/data/v42.0/sobjects", jsonBody := some "ok"
  , textBody := "", limitInfo := none }

/-- A 401 response (classified `ExpiredSession`). -/
def fx401 : Response :=
  { status := 401, url := "https://na1/services/data/v42.0/query", jsonBody := some "expired"
  , textBody := "", limitInfo := none }

/-- A threaded-transport state whose never-read `_exp` field says the
session expired at epoch 0. -/
def fxSyncState : SyncState :=
  { session_id := some "tok0", sf_instance := some "na1", _exp := 0, api_usage := (none, none) }

/-- An authenticated async-transport state (session valid until 100,
auth kwargs still holding their session entry). -/
def fxAsyncState : AsyncState :=
  { session_id := some "tokA", sf_instance := some "na1", exp := 100
  , hasSessionKwarg := true, api_usage := (none, none) }

/-- The login provider rejecting credentials. -/
def fxAuthErr : SfError :=
  { kind := .authenticationFailed, url := "https://login.salesforce.com", status := 400
  , resource_name := "", content := .text "INVALID_LOGIN" }

/-- A bulk-server oracle: every batch is terminal at the first poll, no
query result sets. -/
def fxOracle : BulkOracle Nat :=
  { pendingPolls := fun _ => 0, queryIds := [], idResult := fun _ => [] }

/-- An error response whose body is not valid JSON. -/
def fxBadJson : Response :=
  { status := 500, url := "https://na1/services/data/v42.0/sobjects", jsonBody := none
  , textBody := "Unable to process request", limitInfo := none }

/-- An async-transport state after a successful renewal: the auth kwargs
have lost their session entry and the session expired at 3. -/
def fxAsyncStateUsed : AsyncState :=
  { session_id := some "tokB", sf_instance := some "na1", exp := 3
  , hasSessionKwarg := false, api_usage := (none, none) }

/-! # Theorems

Helper lemmas first, then one theorem per claim (each with its witness or
counterexample where required).

## Helper lemmas for the header parser -/

theorem dropLit_eq_some_iff {p s r : List Char} : dropLit p s = some r ↔ s = p ++ r := by
  induction p generalizing s with
  | nil => simp [dropLit]
  | cons c cs ih =>
    cases s with
    | nil => simp [dropLit]
    | cons d ds =>
      by_cases hcd : c = d
      · subst hcd
        simp [dropLit, ih]
      · simp [dropLit, hcd, Ne.symm hcd]

theorem dropLit_self_append (p s : List Char) : dropLit p (p ++ s) = some s :=
  dropLit_eq_some_iff.2 rfl

theorem dropLit_none_of_not_mem {p s : List Char} {c : Char} (hc : c ∈ p) (hs : c ∉ s) :
    dropLit p s = none := by
  cases hd : dropLit p s with
  | none => rfl
  | some r =>
    exact absurd (dropLit_eq_some_iff.1 hd ▸ List.mem_append_left r hc) hs

theorem dropLit_append_none {p x z : List Char}
    (h : x.take (min p.length x.length) ≠ p.take (min p.length x.length)) :
    dropLit p (x ++ z) = none := by
  cases hd : dropLit p (x ++ z) with
  | none => rfl
  | some r =>
    have he : x ++ z = p ++ r := dropLit_eq_some_iff.1 hd
    have h1 : (x ++ z).take (min p.length x.length) = x.take (min p.length x.length) :=
      List.take_append_of_le_length (min_le_right _ _)
    have h2 : (p ++ r).take (min p.length x.length) = p.take (min p.length x.length) :=
      List.take_append_of_le_length (min_le_left _ _)
    rw [he, h2] at h1
    exact absurd h1.symm h

theorem suffix_append_cases {s x y : List Char} (h : s <:+ x ++ y) :
    s <:+ y ∨ ∃ x2, x2 <:+ x ∧ x2 ≠ [] ∧ s = x2 ++ y := by
  obtain ⟨t, ht⟩ := h
  rcases List.append_eq_append_iff.1 ht with ⟨a, ha1, ha2⟩ | ⟨c, hc1, hc2⟩
  · cases a with
    | nil => exact Or.inl (ha2 ▸ List.suffix_refl y)
    | cons b bs => exact Or.inr ⟨b :: bs, ⟨t, ha1.symm⟩, List.cons_ne_nil b bs, ha2⟩
  · exact Or.inl ⟨c, hc2.symm⟩

theorem suffix_eq_drop {x y : List Char} (h : x <:+ y) :
    x = y.drop (y.length - x.length) := by
  obtain ⟨t, ht⟩ := h
  have hlen : y.length = t.length + x.length := by rw [← ht, List.length_append]
  have : y.length - x.length = t.length := by omega
  rw [this, ← ht, List.drop_left]

theorem perAppSearch_eq_none {w : List Char}
    (h : ∀ s, s <:+ w → s ≠ w → perAppAux s = none) : perAppSearch w = none := by
  induction w with
  | nil => rfl
  | cons c rest ih =>
    have hlen : ∀ s : List Char, s <:+ rest → s ≠ c :: rest := by
      intro s hs heq
      have := hs.sublist.length_le
      rw [heq] at this
      simp at this
    have hrest : perAppAux rest = none := h rest (List.suffix_cons c rest) (hlen rest (List.suffix_refl rest))
    have hsearch : perAppSearch rest = none :=
      ih fun s hs _ => h s (hs.trans (List.suffix_cons c rest)) (hlen s hs)
    simp [perAppSearch, hsearch, hrest]

theorem perAppSearch_cons (c : Char) (l : List Char) :
    perAppSearch (c :: l)
      = match perAppSearch l with | some r => some r | none => perAppAux l := rfl

theorem perAppSearch_append {q w : List Char} {r : PerAppUsage}
    (hq : q ≠ []) (hw : ∀ s, s <:+ w → s ≠ w → perAppAux s = none)
    (hm : perAppAux w = some r) : perAppSearch (q ++ w) = some r := by
  induction q with
  | nil => exact absurd rfl hq
  | cons c q2 ih =>
    rw [List.cons_append, perAppSearch_cons]
    cases q2 with
    | nil =>
      rw [List.nil_append, perAppSearch_eq_none hw, hm]
    | cons d q3 =>
      rw [ih (List.cons_ne_nil d q3)]

theorem perAppAux_of_dropLit_none {s : List Char} (h : dropLit litPerApp s = none) :
    perAppAux s = none := by
  simp [perAppAux, h]

theorem dropLit_litPerApp_cons {c : Char} (t : List Char) (h : c ≠ 'p') :
    dropLit litPerApp (c :: t) = none := by
  simp [litPerApp, dropLit, Ne.symm h]

theorem dropLit_litPerApp_cons2 {c : Char} (t : List Char) (h : c ≠ 'e') :
    dropLit litPerApp ('p' :: c :: t) = none := by
  simp [litPerApp, dropLit, Ne.symm h]

theorem perAppAux_nil : perAppAux ([] : List Char) = none := rfl

theorem region_digits {x z : List Char} (hd : ∀ c ∈ x, c.isDigit = true) (hne : x ≠ []) :
    perAppAux (x ++ z) = none := by
  cases x with
  | nil => exact absurd rfl hne
  | cons c cs =>
    apply perAppAux_of_dropLit_none
    rw [List.cons_append]
    apply dropLit_litPerApp_cons
    intro hcp
    have := hd c (List.mem_cons_self c cs)
    rw [hcp] at this
    exact absurd this (by decide)

theorem region_name {x : List Char} (hx : '=' ∉ x) : perAppAux (x ++ [')']) = none := by
  apply perAppAux_of_dropLit_none
  apply dropLit_none_of_not_mem (c := '=') (by decide)
  intro hmem
  rcases List.mem_append.1 hmem with h1 | h2
  · exact hx h1
  · simp at h2

theorem region_litAppName {x z : List Char} (hx : x <:+ litAppName) (hne : x ≠ []) :
    perAppAux (x ++ z) = none := by
  apply perAppAux_of_dropLit_none
  apply dropLit_append_none
  have hlen1 : 1 ≤ x.length := List.length_pos.2 hne
  have hlen2 : x.length ≤ 9 := by
    have := hx.sublist.length_le
    simpa [litAppName] using this
  have hdrop : x = litAppName.drop (litAppName.length - x.length) := suffix_eq_drop hx
  have h9 : litAppName.length = 9 := rfl
  rw [h9] at hdrop
  set j := x.length with hj
  rw [hdrop]
  interval_cases j <;> decide

theorem region_litPerApp {x z : List Char} (hx : x <:+ litPerApp) (hne : x ≠ [])
    (hwhole : x ≠ litPerApp) : perAppAux (x ++ z) = none := by
  apply perAppAux_of_dropLit_none
  apply dropLit_append_none
  have hlen1 : 1 ≤ x.length := List.length_pos.2 hne
  have hlen2 : x.length ≤ 17 := by
    have hle := hx.sublist.length_le
    have h18 : litPerApp.length = 18 := rfl
    rcases Nat.lt_or_ge x.length 18 with hlt | hge
    · omega
    · exfalso
      apply hwhole
      have : x.length = 18 := by omega
      have hdrop := suffix_eq_drop hx
      rw [h18, this] at hdrop
      simpa using hdrop
  have hdrop : x = litPerApp.drop (litPerApp.length - x.length) := suffix_eq_drop hx
  have h18 : litPerApp.length = 18 := rfl
  rw [h18] at hdrop
  set j := x.length with hj
  rw [hdrop]
  interval_cases j <;> decide

theorem region_litApiUsage {x z : List Char} (hx : x <:+ litApiUsage) (hne : x ≠ []) :
    perAppAux (x ++ z) = none := by
  apply perAppAux_of_dropLit_none
  apply dropLit_append_none
  have hlen1 : 1 ≤ x.length := List.length_pos.2 hne
  have hlen2 : x.length ≤ 10 := by
    have := hx.sublist.length_le
    simpa [litApiUsage] using this
  have hdrop : x = litApiUsage.drop (litApiUsage.length - x.length) := suffix_eq_drop hx
  have h10 : litApiUsage.length = 10 := rfl
  rw [h10] at hdrop
  set j := x.length with hj
  rw [hdrop]
  interval_cases j <;> decide

theorem span_digits_append {u t : List Char} (hu : ∀ c ∈ u, c.isDigit = true)
    (ht : ∀ c, t.head? = some c → c.isDigit = false) :
    (u ++ t).takeWhile Char.isDigit = u ∧ (u ++ t).dropWhile Char.isDigit = t := by
  induction u with
  | nil =>
    cases t with
    | nil => exact ⟨rfl, rfl⟩
    | cons c cs =>
      have hc : c.isDigit = false := ht c rfl
      simp [List.takeWhile, List.dropWhile, hc]
  | cons c cs ih =>
    have hc : c.isDigit = true := hu c (List.mem_cons_self c cs)
    have hrest := ih (fun d hd => hu d (List.mem_cons_of_mem c hd))
    simp [List.takeWhile, List.dropWhile, hc, hrest.1, hrest.2]

theorem nameFromTail_append {n : List Char} (hn0 : n ≠ []) :
    nameFromTail (n ++ [')']) = some n := by
  have hrev : (n ++ [')']).reverse = ')' :: n.reverse := by
    simp
  have hdw : (')' :: n.reverse).dropWhile (fun c => c ≠ ')') = ')' :: n.reverse := by
    simp [List.dropWhile]
  have hie : n.reverse.isEmpty = false := by
    cases hn : n.reverse with
    | nil => exact absurd (by simpa using hn) hn0
    | cons a as => simp
  simp [nameFromTail, hrev, hdw, hie]

theorem tail_no_match {u2 v2 n : List Char} (hu2 : ∀ c ∈ u2, c.isDigit = true)
    (hv2 : ∀ c ∈ v2, c.isDigit = true) (hne : '=' ∉ n) :
    ∀ s, s <:+ (u2 ++ '/' :: (v2 ++ litAppName ++ (n ++ [')']))) → perAppAux s = none := by
  intro s hs
  rcases suffix_append_cases hs with hs1 | ⟨x2, hx2, hxne, rfl⟩
  swap
  · exact region_digits (fun c hc => hu2 c (hx2.subset hc)) hxne
  rcases List.suffix_cons_iff.1 hs1 with rfl | hs2
  · exact perAppAux_of_dropLit_none (dropLit_litPerApp_cons _ (by decide))
  rw [List.append_assoc] at hs2
  rcases suffix_append_cases hs2 with hs3 | ⟨x2, hx2, hxne, rfl⟩
  swap
  · exact region_digits (fun c hc => hv2 c (hx2.subset hc)) hxne
  rcases suffix_append_cases hs3 with hs4 | ⟨x2, hx2, hxne, rfl⟩
  swap
  · exact region_litAppName hx2 hxne
  rcases suffix_append_cases hs4 with hs5 | ⟨x2, hx2, hxne, rfl⟩
  swap
  · exact region_name (fun hc => hne (hx2.subset hc))
  rcases List.suffix_cons_iff.1 hs5 with rfl | hs6
  · exact perAppAux_of_dropLit_none (dropLit_litPerApp_cons _ (by decide))
  · rw [List.suffix_nil.1 hs6]
    exact perAppAux_nil

theorem clause_no_proper {u2 v2 n s : List Char} (hu2 : ∀ c ∈ u2, c.isDigit = true)
    (hv2 : ∀ c ∈ v2, c.isDigit = true) (hne : '=' ∉ n)
    (hs : s <:+ perAppClause u2 v2 n) (hsne : s ≠ perAppClause u2 v2 n) :
    perAppAux s = none := by
  unfold perAppClause at hs hsne
  rw [List.append_assoc] at hs
  rcases suffix_append_cases hs with hs1 | ⟨x2, hx2, hxne, rfl⟩
  · exact tail_no_match hu2 hv2 hne s hs1
  · rcases eq_or_ne x2 litPerApp with rfl | hx2ne
    · exact absurd (by simp [List.append_assoc]) hsne
    · exact region_litPerApp hx2 hxne hx2ne

theorem perAppAux_clause {u2 v2 n : List Char} (hu2 : ∀ c ∈ u2, c.isDigit = true)
    (hv2 : ∀ c ∈ v2, c.isDigit = true) (hu20 : u2 ≠ []) (hv20 : v2 ≠ [])
    (hn0 : n ≠ []) :
    perAppAux (perAppClause u2 v2 n) = some ⟨digitsToNat u2, digitsToNat v2, n⟩ := by
  unfold perAppClause
  rw [List.append_assoc, perAppAux]
  rw [dropLit_self_append]
  have hsp1 := span_digits_append (t := '/' :: (v2 ++ litAppName ++ (n ++ [')']))) hu2
    (fun c hc => by simp at hc; subst hc; decide)
  have hu2e : u2.isEmpty = false := by
    cases u2 with
    | nil => exact absurd rfl hu20
    | cons a as => simp
  simp only [hsp1.1, hsp1.2, hu2e, Bool.false_eq_true, if_false]
  have hd2 : dropLit ['/'] ('/' :: (v2 ++ litAppName ++ (n ++ [')'])))
      = some (v2 ++ litAppName ++ (n ++ [')'])) :=
    dropLit_self_append ['/'] _
  rw [hd2]
  rw [List.append_assoc]
  have hsp2 := span_digits_append (t := litAppName ++ (n ++ [')'])) hv2
    (fun c hc => by simp [litAppName] at hc; subst hc; decide)
  have hv2e : v2.isEmpty = false := by
    cases v2 with
    | nil => exact absurd rfl hv20
    | cons a as => simp
  simp only [hsp2.1, hsp2.2, hv2e, Bool.false_eq_true, if_false]
  rw [dropLit_self_append]
  simp only [nameFromTail_append hn0]

theorem parsePrimaryCore_append {u v t : List Char} (hu : ∀ c ∈ u, c.isDigit = true)
    (hv : ∀ c ∈ v, c.isDigit = true) (hu0 : u ≠ []) (hv0 : v ≠ [])
    (ht : ∀ c, t.head? = some c → c.isDigit = false) :
    parsePrimaryCore (litApiUsage ++ (u ++ '/' :: (v ++ t)))
      = some ⟨digitsToNat u, digitsToNat v⟩ := by
  rw [parsePrimaryCore, dropLit_self_append]
  have hsp1 := span_digits_append (t := '/' :: (v ++ t)) hu
    (fun c hc => by simp at hc; subst hc; decide)
  have hue : u.isEmpty = false := by
    cases u with
    | nil => exact absurd rfl hu0
    | cons a as => simp
  simp only [hsp1.1, hsp1.2, hue, Bool.false_eq_true, if_false]
  have hd2 : dropLit ['/'] ('/' :: (v ++ t)) = some (v ++ t) := dropLit_self_append ['/'] _
  rw [hd2]
  have hsp2 := span_digits_append (t := t) hv ht
  have hve : v.isEmpty = false := by
    cases v with
    | nil => exact absurd rfl hv0
    | cons a as => simp
  simp only [hsp2.1, hve, Bool.false_eq_true, if_false]

theorem primaryStr_append_eq (u v t : List Char) :
    primaryStr u v ++ t = litApiUsage ++ (u ++ '/' :: (v ++ t)) := by
  simp [primaryStr, List.append_assoc]

theorem parsePrimary_append {u v t : List Char} (hu : ∀ c ∈ u, c.isDigit = true)
    (hv : ∀ c ∈ v, c.isDigit = true) (hu0 : u ≠ []) (hv0 : v ≠ [])
    (ht : ∀ c, t.head? = some c → c.isDigit = false) :
    parsePrimary (primaryStr u v ++ t) = some ⟨digitsToNat u, digitsToNat v⟩ := by
  rw [primaryStr_append_eq]
  have hshape : litApiUsage ++ (u ++ '/' :: (v ++ t))
      = 'a' :: ('p' :: 'i' :: '-' :: 'u' :: 's' :: 'a' :: 'g' :: 'e' :: '=' :: (u ++ '/' :: (v ++ t))) := by
    simp [litApiUsage]
  rw [hshape, parsePrimary]
  have hfail : parsePrimaryCore
      ('p' :: 'i' :: '-' :: 'u' :: 's' :: 'a' :: 'g' :: 'e' :: '=' :: (u ++ '/' :: (v ++ t))) = none := by
    rw [parsePrimaryCore]
    have : dropLit litApiUsage
        ('p' :: 'i' :: '-' :: 'u' :: 's' :: 'a' :: 'g' :: 'e' :: '=' :: (u ++ '/' :: (v ++ t))) = none := by
      simp [litApiUsage, dropLit]
    rw [this]
  have hok := parsePrimaryCore_append hu hv hu0 hv0 ht
  rw [hshape] at hok
  simp only [if_neg (by decide : ¬('a' = '-')), hfail, hok]

theorem perAppSearch_primary {u v : List Char} (hu : ∀ c ∈ u, c.isDigit = true)
    (hv : ∀ c ∈ v, c.isDigit = true) :
    perAppSearch (primaryStr u v) = none := by
  apply perAppSearch_eq_none
  intro s hs _
  rw [primaryStr, List.append_assoc] at hs
  rcases suffix_append_cases hs with hs1 | ⟨x2, hx2, hxne, rfl⟩
  swap
  · exact region_litApiUsage hx2 hxne
  rcases suffix_append_cases hs1 with hs2 | ⟨x2, hx2, hxne, rfl⟩
  swap
  · exact region_digits (fun c hc => hu c (hx2.subset hc)) hxne
  rcases List.suffix_cons_iff.1 hs2 with rfl | hs3
  · exact perAppAux_of_dropLit_none (dropLit_litPerApp_cons _ (by decide))
  cases s with
  | nil => exact perAppAux_nil
  | cons c cs =>
    have : (c :: cs) ++ ([] : List Char) = c :: cs := List.append_nil _
    rw [← this]
    exact region_digits (fun d hd => hv d (hs3.subset hd)) (List.cons_ne_nil c cs)

theorem perAppSearch_full {u v u2 v2 n : List Char}
    (hu2 : ∀ c ∈ u2, c.isDigit = true) (hv2 : ∀ c ∈ v2, c.isDigit = true)
    (hu20 : u2 ≠ []) (hv20 : v2 ≠ []) (hn0 : n ≠ []) (hne : '=' ∉ n) :
    perAppSearch (primaryStr u v ++ ';' :: ' ' :: perAppClause u2 v2 n)
      = some ⟨digitsToNat u2, digitsToNat v2, n⟩ := by
  have hshape : primaryStr u v ++ ';' :: ' ' :: perAppClause u2 v2 n
      = (primaryStr u v ++ [';', ' ']) ++ perAppClause u2 v2 n := by
    simp
  rw [hshape]
  exact perAppSearch_append (by simp [primaryStr, litApiUsage])
    (fun s hs hsne => clause_no_proper hu2 hv2 hne hs hsne)
    (perAppAux_clause hu2 hv2 hu20 hv20 hn0)

/-- Claim C6: for every header string conforming to the grammar
`api-usage=<used>/<total>[; per-app-api-usage=<used>/<total>(appName=<name>)]`
(digit components nonempty, the name nonempty and free of the delimiters
`=` and the closing parenthesis' role), `parse_api_usage` returns the
primary used/total pair; the per-app triple is returned exactly when the
per-app clause is present and well-formed (absent clause → no per-app
entry); a present-but-malformed continuation after the primary clause
(any non-digit continuation `t`) does not prevent the primary clause from
being parsed. Concretely, `api-usage=18/5000` yields used 18, total 5000
and no per-app entry, and
`api-usage=25/5000; per-app-api-usage=17/250(appName=sample-app)` yields
both entries with app name `sample-app`. -/
theorem c6_parse_api_usage_grammar
    (u v u2 v2 n t : List Char)
    (hu : ∀ c ∈ u, c.isDigit = true) (hv : ∀ c ∈ v, c.isDigit = true)
    (hu0 : u ≠ []) (hv0 : v ≠ [])
    (ht : ∀ c, t.head? = some c → c.isDigit = false)
    (hu2 : ∀ c ∈ u2, c.isDigit = true) (hv2 : ∀ c ∈ v2, c.isDigit = true)
    (hu20 : u2 ≠ []) (hv20 : v2 ≠ []) (hn0 : n ≠ []) (hne : '=' ∉ n) :
    (parseLimitInfo (primaryStr u v ++ t)).1 = some ⟨digitsToNat u, digitsToNat v⟩
    ∧ parseLimitInfo (primaryStr u v) = (some ⟨digitsToNat u, digitsToNat v⟩, none)
    ∧ parseLimitInfo (primaryStr u v ++ ';' :: ' ' :: perAppClause u2 v2 n)
        = (some ⟨digitsToNat u, digitsToNat v⟩, some ⟨digitsToNat u2, digitsToNat v2, n⟩)
    ∧ parse_api_usage "api-usage=18/5000" = (some ⟨18, 5000⟩, none)
    ∧ parse_api_usage "api-usage=25/5000; per-app-api-usage=17/250(appName=sample-app)"
        = (some ⟨25, 5000⟩, some ⟨17, 250, "sample-app".toList⟩) := by
  refine ⟨parsePrimary_append hu hv hu0 hv0 ht, ?_, ?_, by decide, by decide⟩
  · unfold parseLimitInfo
    rw [perAppSearch_primary hu hv]
    have hp := parsePrimary_append (t := []) hu hv hu0 hv0 (fun c hc => by simp at hc)
    rw [List.append_nil] at hp
    rw [hp]
  · unfold parseLimitInfo
    rw [perAppSearch_full hu2 hv2 hu20 hv20 hn0 hne]
    have hp := parsePrimary_append (t := ';' :: ' ' :: perAppClause u2 v2 n) hu hv hu0 hv0
      (fun c hc => by simp at hc; subst hc; decide)
    rw [hp]

/-- Witness for C6 at the spec's concrete scenarios. -/
theorem c6_witness :
    (parseLimitInfo (primaryStr ['2', '5'] ['5', '0', '0', '0'] ++ [';'])).1
        = some ⟨digitsToNat ['2', '5'], digitsToNat ['5', '0', '0', '0']⟩
    ∧ parseLimitInfo (primaryStr ['2', '5'] ['5', '0', '0', '0'])
        = (some ⟨digitsToNat ['2', '5'], digitsToNat ['5', '0', '0', '0']⟩, none)
    ∧ parseLimitInfo (primaryStr ['2', '5'] ['5', '0', '0', '0']
          ++ ';' :: ' ' :: perAppClause ['1', '7'] ['2', '5', '0'] ['a', 'p', 'p'])
        = (some ⟨digitsToNat ['2', '5'], digitsToNat ['5', '0', '0', '0']⟩,
           some ⟨digitsToNat ['1', '7'], digitsToNat ['2', '5', '0'], ['a', 'p', 'p']⟩)
    ∧ parse_api_usage "api-usage=18/5000" = (some ⟨18, 5000⟩, none)
    ∧ parse_api_usage "api-usage=25/5000; per-app-api-usage=17/250(appName=sample-app)"
        = (some ⟨25, 5000⟩, some ⟨17, 250, "sample-app".toList⟩) :=
  c6_parse_api_usage_grammar ['2', '5'] ['5', '0', '0', '0'] ['1', '7'] ['2', '5', '0']
    ['a', 'p', 'p'] [';']
    (by decide) (by decide) (by decide) (by decide)
    (fun c hc => by simp at hc; subst hc; decide)
    (by decide) (by decide) (by decide) (by decide) (by decide) (by decide)

/-! ## Helper lemmas for the classifier and the dispatchers -/

theorem exc_map_lookup_eq (s : Nat) :
    ((exc_map.lookup s).getD .generalError) = classifyKindSpec s := by
  unfold exc_map classifyKindSpec
  rcases em (s = 300) with rfl | h300
  · decide
  rcases em (s = 400) with rfl | h400
  · decide
  rcases em (s = 401) with rfl | h401
  · decide
  rcases em (s = 403) with rfl | h403
  · decide
  rcases em (s = 404) with rfl | h404
  · decide
  have b1 : (s == 300) = false := by simpa using h300
  have b2 : (s == 400) = false := by simpa using h400
  have b3 : (s == 401) = false := by simpa using h401
  have b4 : (s == 403) = false := by simpa using h403
  have b5 : (s == 404) = false := by simpa using h404
  simp [List.lookup, b1, b2, b3, b4, b5, h300, h400, h401, h403, h404]

theorem exception_handler_kind (r : Response) (name : String) :
    (exception_handler r name).kind = classifyKindSpec r.status := by
  unfold exception_handler
  exact exc_map_lookup_eq r.status

theorem classifyKindSpec_expired_iff (s : Nat) :
    classifyKindSpec s = .expiredSession ↔ s = 401 := by
  unfold classifyKindSpec
  split_ifs <;> simp_all

/-- Claim C3: both classifiers map 300/400/401/403/404 to
MoreThanOneRecord/MalformedRequest/ExpiredSession/RefusedRequest/
ResourceNotFound and any other status to GeneralError, and every produced
error carries the request URL, the status code and the collaborating
object/job name. The threaded handler also carries the parsed (or
raw-text fallback) response body as claimed; the async handler carries the
parsed body only while JSON decoding succeeds — on decode failure it
stores aiohttp's un-awaited `text` method object, not the body text, as
the evaluation at `fxBadJson` (status 500, plain-text body) shows. -/
theorem c3_exception_handler_classification (r : Response) (name : String) :
    (exception_handler r name
      = { kind := classifyKindSpec r.status, url := r.url, status := r.status
        , resource_name := name, content := contentOf r })
    ∧ (async_exception_handler r name
      = { kind := classifyKindSpec r.status, url := r.url, status := r.status
        , resource_name := name, content := asyncContentOf r })
    ∧ (exception_handler fxBadJson "").content = .text "Unable to process request"
    ∧ (async_exception_handler fxBadJson "").content = .textMethod
    ∧ RespContent.textMethod ≠ RespContent.text fxBadJson.textBody := by
  refine ⟨?_, ?_, by decide, by decide, by decide⟩
  · unfold exception_handler
    rw [exc_map_lookup_eq r.status]
  · unfold async_exception_handler
    rw [exc_map_lookup_eq r.status]

/-- Claim C1 (amended): in the threaded transport the 401-classified
response triggers exactly one session renewal and exactly one replay of
the same request, with the retry's classified error surfacing when the
retry still fails; every other status ≥ 300 surfaces immediately with no
retry; on the status sequence 401 then 200 the caller observes the 200
response. (The claim as frozen also covers `AsyncTransport._api_call`,
which performs no retry at all — see the counterexample.) -/
theorem c1_sync_expired_session_retry (st : SyncState) (sid inst : String)
    (r1 r2 : Response) :
    (r1.status = 401 →
       (sync_api_call st (.ok (sid, inst)) r1 r2).2.2 = [.send, .renew, .send]
       ∧ (300 ≤ r2.status →
            (sync_api_call st (.ok (sid, inst)) r1 r2).1 = .error (exception_handler r2 ""))
       ∧ (r2.status < 300 → (sync_api_call st (.ok (sid, inst)) r1 r2).1 = .ok r2))
    ∧ (300 ≤ r1.status → r1.status ≠ 401 →
       (sync_api_call st (.ok (sid, inst)) r1 r2).2.2 = [.send]
       ∧ (sync_api_call st (.ok (sid, inst)) r1 r2).1 = .error (exception_handler r1 ""))
    ∧ (r1.status = 401 → r2.status = 200 →
       (sync_api_call st (.ok (sid, inst)) r1 r2).1 = .ok r2) := by
  have hkind : (exception_handler r1 "").kind = .expiredSession ↔ r1.status = 401 := by
    rw [exception_handler_kind]
    exact classifyKindSpec_expired_iff r1.status
  refine ⟨?_, ?_, ?_⟩
  · intro h401
    have h300 : 300 ≤ r1.status := by omega
    have hk : (exception_handler r1 "").kind = .expiredSession := hkind.2 h401
    simp only [sync_api_call, sync_refresh_session, if_pos h300, if_pos hk]
    by_cases h2 : 300 ≤ r2.status
    · simp only [if_pos h2]
      exact ⟨trivial, fun _ => trivial, fun hlt => absurd h2 (by omega)⟩
    · simp only [if_neg h2]
      exact ⟨trivial, fun hle => absurd hle h2, fun _ => trivial⟩
  · intro h300 hne
    have hk : ¬(exception_handler r1 "").kind = .expiredSession := fun hc => hne (hkind.1 hc)
    simp only [sync_api_call, if_pos h300, if_neg hk]
    exact ⟨trivial, trivial⟩
  · intro h401 h200
    have h300 : 300 ≤ r1.status := by omega
    have hk : (exception_handler r1 "").kind = .expiredSession := hkind.2 h401
    have h2 : ¬300 ≤ r2.status := by omega
    simp only [sync_api_call, sync_refresh_session, if_pos h300, if_pos hk, if_neg h2]

/-- Witness for C1 on concrete responses: first send answers 401, the
replay answers 200, and the caller observes the 200 response after one
renewal and one replay. -/
theorem c1_witness :
    (sync_api_call fxSyncState (.ok ("tokB", "na1")) fx401 fx200).2.2
        = [.send, .renew, .send]
    ∧ (sync_api_call fxSyncState (.ok ("tokB", "na1")) fx401 fx200).1 = .ok fx200 := by
  have h := c1_sync_expired_session_retry fxSyncState "tokB" "na1" fx401 fx200
  exact ⟨(h.1 (by decide)).1, h.2.2 (by decide) (by decide)⟩

/-- Counterexample to C1 as frozen: `AsyncTransport._api_call` never
renews and never replays on a 401-classified response — with a fresh
session (clock 0, expiry 100), a valid login available and a 200 retry
response available, the async dispatcher surfaces the classified
ExpiredSession error after a single send. -/
theorem c1_async_no_retry_counterexample :
    (async_api_call fxAsyncState (.ok ("tokB", "na1", 3600)) 0 fx401).2.2 = [.send]
    ∧ (async_api_call fxAsyncState (.ok ("tokB", "na1", 3600)) 0 fx401).1
        = .error (.sf (exception_handler fx401 ""))
    ∧ (exception_handler fx401 "").kind = .expiredSession := by
  refine ⟨by decide, rfl, by decide⟩

/-- Claim C4 (amended): only the async transport checks freshness before
sending. `AsyncTransport.call` and `_api_call` renew whenever the clock
has reached the expiry timestamp, before any send (first trace event is
the renewal; with a successful login of positive duration the request is
then sent exactly once); when the session is still fresh no renewal
happens. The threaded transport performs no pre-send check at all: its
first trace event is always the send. -/
theorem c4_freshness_check (stS : SyncState) (lS : Except SfError (String × String))
    (r1 r2 : Response) (stA : AsyncState) (l1 l2 : Except SfError (String × String × Nat))
    (now : Nat) (rA : Response) (sid inst : String) (dur : Nat) :
    ((sync_api_call stS lS r1 r2).2.2.head? = some .send)
    ∧ (stA.exp ≤ now → (async_call stA l1 l2 now rA).2.2.head? = some .renew)
    ∧ (now < stA.exp → (async_call stA l1 l2 now rA).2.2 = [.send])
    ∧ (stA.exp ≤ now → stA.hasSessionKwarg = true → l1 = .ok (sid, inst, dur) → 1 ≤ dur →
        (async_call stA l1 l2 now rA).2.2 = [.renew, .send]) := by
  refine ⟨?_, ?_, ?_, ?_⟩
  · cases lS with
    | error e =>
      simp only [sync_api_call, sync_refresh_session]
      split_ifs <;> rfl
    | ok p =>
      obtain ⟨sid2, inst2⟩ := p
      simp only [sync_api_call, sync_refresh_session]
      split_ifs <;> rfl
  · intro hle
    unfold async_call
    rw [if_pos hle]
    rcases hres : async_refresh_session stA l1 now with ⟨st1, oe, b⟩
    cases oe <;> simp [hres]
  · intro hlt
    have hn : ¬stA.exp ≤ now := by omega
    unfold async_call async_api_call
    rw [if_neg hn, if_neg hn]
    split_ifs <;> rfl
  · intro hle hk hl hdur
    subst hl
    unfold async_call
    rw [if_pos hle]
    have hres : async_refresh_session stA (.ok (sid, inst, dur)) now = ({ stA with session_id := some sid, sf_instance := some inst, exp := now + dur, hasSessionKwarg := false }, none, true) := by
      unfold async_refresh_session
      rw [hk]
      rfl
    have hfresh : ¬({ stA with session_id := some sid, sf_instance := some inst, exp := now + dur, hasSessionKwarg := false } : AsyncState).exp ≤ now := by
      show ¬now + dur ≤ now
      omega
    unfold async_api_call
    simp only [hres, if_neg hfresh]
    split_ifs <;> rfl

/-- Witness for C4: with an expired async session (expiry 100, clock 100)
the renewal precedes the send; with a fresh one (clock 0) the call only
sends; the threaded dispatcher's first event is always the send. -/
theorem c4_witness :
    ((sync_api_call fxSyncState (.ok ("tokB", "na1")) fx200 fx200).2.2.head? = some .send)
    ∧ ((async_call fxAsyncState (.ok ("s", "i", 3600)) (.ok ("s", "i", 3600)) 100 fx200).2.2.head?
        = some .renew)
    ∧ ((async_call fxAsyncState (.ok ("s", "i", 3600)) (.ok ("s", "i", 3600)) 100 fx200).2.2
        = [.renew, .send])
    ∧ ((async_call fxAsyncState (.ok ("s", "i", 3600)) (.ok ("s", "i", 3600)) 0 fx200).2.2
        = [.send]) := by
  have h1 := c4_freshness_check fxSyncState (.ok ("tokB", "na1")) fx200 fx200 fxAsyncState
    (.ok ("s", "i", 3600)) (.ok ("s", "i", 3600)) 100 fx200 "s" "i" 3600
  have h2 := c4_freshness_check fxSyncState (.ok ("tokB", "na1")) fx200 fx200 fxAsyncState
    (.ok ("s", "i", 3600)) (.ok ("s", "i", 3600)) 0 fx200 "s" "i" 3600
  exact ⟨h1.1, h1.2.1 (by decide), h1.2.2.2 (by decide) rfl rfl (by decide),
    h2.2.2.1 (by decide)⟩

/-- Counterexample to C4 as frozen: the threaded transport records its
session as expired since epoch 0 (`_exp = 0`, never consulted), yet a data
call goes straight out — the trace is a single send with no renewal, and
the caller gets the 200 response. No `ensureFresh` runs before sending. -/
theorem c4_sync_counterexample :
    fxSyncState._exp = 0
    ∧ (sync_api_call fxSyncState (.ok ("tokB", "na1")) fx200 fx200).2.2 = [.send]
    ∧ TEv.renew ∉ (sync_api_call fxSyncState (.ok ("tokB", "na1")) fx200 fx200).2.2
    ∧ (sync_api_call fxSyncState (.ok ("tokB", "na1")) fx200 fx200).1 = .ok fx200 :=
  ⟨rfl, by decide, by decide, rfl⟩

/-- Claim C5 (amended): when the login provider fails, the threaded
transport's `refresh_session` surfaces that error and leaves the whole
state untouched; the async `refresh_session` also keeps token, instance
host and expiry timestamp, but it has already deleted the session entry
from the stored auth parameters before attempting the login, so that part
of the stored state is mutated even on failure. -/
theorem c5_renewal_failure_state (st : SyncState) (e : SfError) (stA : AsyncState)
    (eA : SfError) (now : Nat) (hk : stA.hasSessionKwarg = true) :
    sync_refresh_session st (.error e) = (st, some e)
    ∧ async_refresh_session stA (.error eA) now
        = ({ stA with hasSessionKwarg := false }, some (.sf eA), true)
    ∧ (async_refresh_session stA (.error eA) now).1.session_id = stA.session_id
    ∧ (async_refresh_session stA (.error eA) now).1.sf_instance = stA.sf_instance
    ∧ (async_refresh_session stA (.error eA) now).1.exp = stA.exp := by
  have h2 : async_refresh_session stA (.error eA) now
      = ({ stA with hasSessionKwarg := false }, some (.sf eA), true) := by
    unfold async_refresh_session
    rw [hk]
    rfl
  exact ⟨rfl, h2, by rw [h2], by rw [h2], by rw [h2]⟩

/-- Witness for C5 at a concrete failing login. -/
theorem c5_witness :
    sync_refresh_session fxSyncState (.error fxAuthErr) = (fxSyncState, some fxAuthErr)
    ∧ async_refresh_session fxAsyncState (.error fxAuthErr) 7
        = ({ fxAsyncState with hasSessionKwarg := false }, some (.sf fxAuthErr), true)
    ∧ (async_refresh_session fxAsyncState (.error fxAuthErr) 7).1.session_id
        = fxAsyncState.session_id
    ∧ (async_refresh_session fxAsyncState (.error fxAuthErr) 7).1.sf_instance
        = fxAsyncState.sf_instance
    ∧ (async_refresh_session fxAsyncState (.error fxAuthErr) 7).1.exp = fxAsyncState.exp :=
  c5_renewal_failure_state fxSyncState fxAuthErr fxAsyncState fxAuthErr 7 rfl

/-- Counterexample to C5 as frozen: after a failed async renewal the
stored state differs from the state before the attempt (the session entry
of the auth parameters is gone), even though the login error surfaced. -/
theorem c5_async_mutation_counterexample :
    (async_refresh_session fxAsyncState (.error fxAuthErr) 7).1 ≠ fxAsyncState
    ∧ (async_refresh_session fxAsyncState (.error fxAuthErr) 7).2.1 = some (.sf fxAuthErr) :=
  ⟨by decide, by decide⟩

/-- Claim C10: async session renewal can succeed at most once. The first
`refresh_session` call (auth kwargs still holding their session entry)
deletes that entry and invokes the login provider; any call on a state
without the entry returns `KeyError` without invoking the login provider
and without changing the state — including the renewal that `_api_call`
triggers automatically once the expiry timestamp has passed, whatever
login result would have been available. -/
theorem c10_refresh_succeeds_at_most_once (st : AsyncState)
    (l l2 : Except SfError (String × String × Nat)) (now now2 : Nat) (r : Response)
    (hk : st.hasSessionKwarg = true) :
    ((async_refresh_session st l now).1.hasSessionKwarg = false)
    ∧ ((async_refresh_session st l now).2.2 = true)
    ∧ (∀ st2 : AsyncState, st2.hasSessionKwarg = false →
        async_refresh_session st2 l2 now2 = (st2, some .keyError, false))
    ∧ (async_refresh_session (async_refresh_session st l now).1 l2 now2
        = ((async_refresh_session st l now).1, some .keyError, false))
    ∧ (∀ st2 : AsyncState, st2.hasSessionKwarg = false → st2.exp ≤ now2 →
        (async_api_call st2 l2 now2 r).1 = .error .keyError) := by
  have h3 : ∀ st2 : AsyncState, st2.hasSessionKwarg = false →
      async_refresh_session st2 l2 now2 = (st2, some .keyError, false) := by
    intro st2 hf
    unfold async_refresh_session
    rw [hf]
    rfl
  have h1 : (async_refresh_session st l now).1.hasSessionKwarg = false := by
    unfold async_refresh_session
    rw [hk]
    cases l with
    | error e => rfl
    | ok p =>
      obtain ⟨sid, inst, dur⟩ := p
      rfl
  have h2 : (async_refresh_session st l now).2.2 = true := by
    unfold async_refresh_session
    rw [hk]
    cases l with
    | error e => rfl
    | ok p =>
      obtain ⟨sid, inst, dur⟩ := p
      rfl
  refine ⟨h1, h2, h3, h3 _ h1, ?_⟩
  intro st2 hf hle
  unfold async_api_call
  rw [if_pos hle, h3 st2 hf]

/-- Witness for C10: a concrete first renewal succeeds and flips the flag;
the immediate second renewal returns `KeyError` without a login attempt,
and the automatic expiry-triggered renewal inside `_api_call` likewise
surfaces `KeyError` even though a valid login result was available. -/
theorem c10_witness :
    ((async_refresh_session fxAsyncState (.ok ("t", "i", 3600)) 0).1.hasSessionKwarg = false)
    ∧ ((async_refresh_session fxAsyncState (.ok ("t", "i", 3600)) 0).2.2 = true)
    ∧ (async_refresh_session ((async_refresh_session fxAsyncState (.ok ("t", "i", 3600)) 0).1)
          (.ok ("t2", "i2", 100)) 5
        = ((async_refresh_session fxAsyncState (.ok ("t", "i", 3600)) 0).1, some .keyError, false))
    ∧ ((async_api_call fxAsyncStateUsed (.ok ("t2", "i2", 100)) 5 fx200).1
        = .error .keyError) := by
  have h := c10_refresh_succeeds_at_most_once fxAsyncState (.ok ("t", "i", 3600))
    (.ok ("t2", "i2", 100)) 0 5 fx200 rfl
  exact ⟨h.1, h.2.1, h.2.2.2.1, h.2.2.2.2 fxAsyncStateUsed rfl (by decide)⟩

/-! ## Helper lemmas for the bulk chunking -/

theorem codeChunks_nil (bs : Nat) : codeChunks bs ([] : List α) = [] := by
  simp [codeChunks, List.range_succ]

theorem take_isEmpty_false {data : List α} {bs : Nat} (hbs : 1 ≤ bs) (hne : data ≠ []) :
    (data.take bs).isEmpty = false := by
  cases data with
  | nil => exact absurd rfl hne
  | cons x xs =>
    cases bs with
    | zero => omega
    | succ b => simp

theorem codeChunks_cons {bs : Nat} (hbs : 1 ≤ bs) (data : List α) (hne : data ≠ []) :
    codeChunks bs data = data.take bs :: codeChunks bs (data.drop bs) := by
  have hlen : 1 ≤ data.length := List.length_pos.2 hne
  rcases Nat.lt_or_ge data.length bs with hsm | hge
  · have hdiv : data.length / bs = 0 := Nat.div_eq_of_lt hsm
    have hdrop : data.drop bs = [] := List.drop_eq_nil_of_le (by omega)
    rw [hdrop, codeChunks_nil]
    unfold codeChunks
    rw [hdiv]
    simp [List.range_succ, take_isEmpty_false hbs hne]
  · have hdiv : data.length / bs = (data.length - bs) / bs + 1 :=
      Nat.div_eq_sub_div (by omega) hge
    have hlen2 : (data.drop bs).length = data.length - bs := by
      simp [List.length_drop]
    unfold codeChunks
    rw [hdiv, hlen2]
    rw [List.range_succ_eq_map]
    simp only [List.map_cons, List.map_map]
    rw [List.filter_cons]
    simp only [Nat.zero_mul, List.drop_zero, take_isEmpty_false hbs hne, Bool.not_false,
      if_pos]
    congr 1
    apply congrArg
    apply List.map_congr_left
    intro i _
    simp only [Function.comp]
    rw [Nat.succ_mul, List.drop_drop]
    congr 2
    omega

theorem chunkListFuel_nil (f bs : Nat) : chunkListFuel f bs ([] : List α) = [] := by
  cases f <;> cases bs <;> rfl

theorem chunkListFuel_congr (f1 : Nat) : ∀ (f2 bs : Nat) (l : List α),
    l.length ≤ f1 → l.length ≤ f2 → chunkListFuel f1 bs l = chunkListFuel f2 bs l := by
  induction f1 with
  | zero =>
    intro f2 bs l h1 h2
    have : l = [] := by
      cases l with
      | nil => rfl
      | cons x xs => simp at h1
    subst this
    rw [chunkListFuel_nil, chunkListFuel_nil]
  | succ f ih =>
    intro f2 bs l h1 h2
    cases l with
    | nil => rw [chunkListFuel_nil, chunkListFuel_nil]
    | cons x xs =>
      cases f2 with
      | zero => simp at h2
      | succ f2 =>
        cases bs with
        | zero => rfl
        | succ b =>
          show (x :: xs).take (b + 1) :: chunkListFuel f (b + 1) (xs.drop b)
              = (x :: xs).take (b + 1) :: chunkListFuel f2 (b + 1) (xs.drop b)
          congr 1
          apply ih
          · simp only [List.length_drop]
            simp only [List.length_cons] at h1
            omega
          · simp only [List.length_drop]
            simp only [List.length_cons] at h2
            omega

theorem chunkList_cons (bs : Nat) (x : α) (xs : List α) :
    chunkList (bs + 1) (x :: xs)
      = (x :: xs).take (bs + 1) :: chunkList (bs + 1) ((x :: xs).drop (bs + 1)) := by
  unfold chunkList
  have h1 : chunkListFuel (x :: xs).length (bs + 1) (x :: xs)
      = (x :: xs).take (bs + 1) :: chunkListFuel xs.length (bs + 1) (xs.drop bs) := rfl
  rw [h1]
  congr 1
  have hd : (x :: xs).drop (bs + 1) = xs.drop bs := rfl
  rw [hd]
  apply chunkListFuel_congr
  · simp only [List.length_drop]
    omega
  · exact le_refl _


theorem codeChunks_eq_chunkList {bs : Nat} (hbs : 1 ≤ bs) (data : List α) :
    codeChunks bs data = chunkList bs data := by
  have main : ∀ (fuel : Nat) (l : List α), l.length ≤ fuel →
      codeChunks bs l = chunkList bs l := by
    intro fuel
    induction fuel with
    | zero =>
      intro l h
      have : l = [] := by
        cases l with
        | nil => rfl
        | cons x xs => simp at h
      subst this
      rw [codeChunks_nil]
      rfl
    | succ f ih =>
      intro l h
      cases l with
      | nil =>
        rw [codeChunks_nil]
        rfl
      | cons x xs =>
        obtain ⟨b, rfl⟩ : ∃ b, bs = b + 1 := ⟨bs - 1, by omega⟩
        rw [codeChunks_cons (by omega) (x :: xs) (List.cons_ne_nil x xs)]
        rw [chunkList_cons b x xs]
        congr 1
        apply ih
        simp only [List.length_drop, List.length_cons]
        simp only [List.length_cons] at h
        omega
  exact main data.length data (le_refl _)

theorem chunkList_flatten {bs : Nat} (hbs : 1 ≤ bs) (data : List α) :
    (chunkList bs data).flatten = data := by
  have main : ∀ (fuel : Nat) (l : List α), l.length ≤ fuel →
      (chunkList bs l).flatten = l := by
    intro fuel
    induction fuel with
    | zero =>
      intro l h
      have : l = [] := by
        cases l with
        | nil => rfl
        | cons x xs => simp at h
      subst this
      rfl
    | succ f ih =>
      intro l h
      cases l with
      | nil => rfl
      | cons x xs =>
        obtain ⟨b, rfl⟩ : ∃ b, bs = b + 1 := ⟨bs - 1, by omega⟩
        rw [chunkList_cons b x xs]
        rw [List.flatten_cons]
        rw [ih ((x :: xs).drop (b + 1)) (by simp only [List.length_drop, List.length_cons]; simp only [List.length_cons] at h; omega)]
        exact List.take_append_drop (b + 1) (x :: xs)
  exact main data.length data (le_refl _)

theorem chunkList_length {bs : Nat} (hbs : 1 ≤ bs) (data : List α) :
    (chunkList bs data).length = ceilDiv data.length bs := by
  have main : ∀ (fuel : Nat) (l : List α), l.length ≤ fuel →
      (chunkList bs l).length = ceilDiv l.length bs := by
    intro fuel
    induction fuel with
    | zero =>
      intro l h
      have : l = [] := by
        cases l with
        | nil => rfl
        | cons x xs => simp at h
      subst this
      show (0 : Nat) = ceilDiv 0 bs
      unfold ceilDiv
      rw [Nat.div_eq_of_lt (by omega)]
    | succ f ih =>
      intro l h
      cases l with
      | nil =>
        show (0 : Nat) = ceilDiv 0 bs
        unfold ceilDiv
        rw [Nat.div_eq_of_lt (by omega)]
      | cons x xs =>
        obtain ⟨b, rfl⟩ : ∃ b, bs = b + 1 := ⟨bs - 1, by omega⟩
        rw [chunkList_cons b x xs]
        rw [List.length_cons]
        rw [ih ((x :: xs).drop (b + 1)) (by simp only [List.length_drop, List.length_cons]; simp only [List.length_cons] at h; omega)]
        simp only [List.length_drop, List.length_cons]
        unfold ceilDiv
        rcases le_or_lt (xs.length + 1) (b + 1) with hle | hgt
        · have h1 : xs.length + 1 - (b + 1) = 0 := by omega
          rw [h1]
          have h2 : (0 + (b + 1) - 1) / (b + 1) = 0 := Nat.div_eq_of_lt (by omega)
          rw [h2]
          have h3 : xs.length + 1 + (b + 1) - 1 = xs.length + (b + 1) := by omega
          rw [h3, Nat.add_div_right _ (by omega)]
          rw [Nat.div_eq_of_lt (by omega)]
        · have h3 : xs.length + 1 + (b + 1) - 1 = (xs.length + 1 - (b + 1) + (b + 1) - 1) + (b + 1) := by
            omega
          rw [h3, Nat.add_div_right _ (by omega)]
  exact main data.length data (le_refl _)

theorem chunkList_nil (bs : Nat) : chunkList bs ([] : List α) = [] :=
  chunkListFuel_nil 0 bs

theorem chunkList_of_length_le {b1 b2 : Nat} (data : List α)
    (hl1 : data.length ≤ b1) (hl2 : data.length ≤ b2) :
    chunkList b1 data = chunkList b2 data := by
  cases data with
  | nil => rfl
  | cons x xs =>
    have hb1 : 1 ≤ b1 := by simp at hl1; omega
    have hb2 : 1 ≤ b2 := by simp at hl2; omega
    obtain ⟨c1, rfl⟩ : ∃ c, b1 = c + 1 := ⟨b1 - 1, by omega⟩
    obtain ⟨c2, rfl⟩ : ∃ c, b2 = c + 1 := ⟨b2 - 1, by omega⟩
    rw [chunkList_cons, chunkList_cons]
    rw [List.take_of_length_le hl1, List.take_of_length_le hl2]
    rw [List.drop_eq_nil_of_le hl1, List.drop_eq_nil_of_le hl2]
    rw [chunkList_nil, chunkList_nil]

theorem chunkList_effBatchSize {bs : Nat} (hbs : 1 ≤ bs) (data : List α) :
    chunkList (effBatchSize data.length bs) data = chunkList (min bs 10000) data := by
  unfold effBatchSize
  by_cases h : 10000 ≤ data.length ∧ 10000 < bs
  · rw [if_pos h]
    have hmin : min bs 10000 = 10000 := by omega
    rw [hmin]
  · rw [if_neg h]
    rcases le_or_lt bs 10000 with hle | hgt
    · have hmin : min bs 10000 = bs := by omega
      rw [hmin]
    · have hN : data.length < 10000 := by
        by_contra hc
        exact h ⟨by omega, hgt⟩
      have hmin : min bs 10000 = 10000 := by omega
      rw [hmin]
      exact chunkList_of_length_le data (by omega) (by omega)

theorem chunkList_ne_nil {bs : Nat} (hbs : 1 ≤ bs) {data : List α} (hne : data ≠ []) :
    chunkList bs data ≠ [] := by
  cases data with
  | nil => exact absurd rfl hne
  | cons x xs =>
    obtain ⟨b, rfl⟩ : ∃ b, bs = b + 1 := ⟨bs - 1, by omega⟩
    rw [chunkList_cons]
    simp

theorem effBatchSize_pos (n : Nat) {bs : Nat} (hbs : 1 ≤ bs) : 1 ≤ effBatchSize n bs := by
  unfold effBatchSize
  split_ifs <;> omega

theorem bulk_operation_mut_eq_zero (operation objectName : String) (data : List α)
    (queryStr : String) (use_serial : Bool) (ext : Option String) (batch_size : Nat)
    (oracle : BulkOracle β) (hop : ¬(operation = "query" ∨ operation = "queryAll"))
    (h0 : effBatchSize data.length batch_size = 0) :
    bulk_operation operation objectName data queryStr use_serial ext batch_size oracle
      = ([.createJob (mkJobPayload operation objectName use_serial ext)],
         .error .zeroDivisionError) := by
  simp only [bulk_operation]
  rw [if_neg hop, if_pos h0]

theorem bulk_operation_mut_eq_empty (operation objectName : String) (data : List α)
    (queryStr : String) (use_serial : Bool) (ext : Option String) (batch_size : Nat)
    (oracle : BulkOracle β) (hop : ¬(operation = "query" ∨ operation = "queryAll"))
    (h0 : ¬effBatchSize data.length batch_size = 0)
    (hch : codeChunks (effBatchSize data.length batch_size) data = []) :
    bulk_operation operation objectName data queryStr use_serial ext batch_size oracle
      = ([.createJob (mkJobPayload operation objectName use_serial ext), .closeJob],
         .ok ([] : List β)) := by
  simp only [bulk_operation]
  rw [if_neg hop, if_neg h0, hch]

theorem bulk_operation_mut_eq_crash (operation objectName : String) (data : List α)
    (queryStr : String) (use_serial : Bool) (ext : Option String) (batch_size : Nat)
    (oracle : BulkOracle β) {c : List α} {cs : List (List α)}
    (hop : ¬(operation = "query" ∨ operation = "queryAll"))
    (h0 : ¬effBatchSize data.length batch_size = 0)
    (hch : codeChunks (effBatchSize data.length batch_size) data = c :: cs) :
    bulk_operation operation objectName data queryStr use_serial ext batch_size oracle
      = ([.createJob (mkJobPayload operation objectName use_serial ext)]
           ++ ((c :: cs).map fun ch => .addBatchRecords ch),
         .error .typeError) := by
  simp only [bulk_operation]
  rw [if_neg hop, if_neg h0, hch]

theorem bulk_operation_query_eq (operation objectName : String) (data : List α)
    (queryStr : String) (use_serial : Bool) (ext : Option String) (batch_size : Nat)
    (oracle : BulkOracle β) (hop : operation = "query" ∨ operation = "queryAll") :
    bulk_operation operation objectName data queryStr use_serial ext batch_size oracle
      = ([.createJob (mkJobPayload operation objectName use_serial ext),
          .addBatchQuery queryStr, .closeJob]
           ++ List.replicate (oracle.pendingPolls 0 + 1) (.pollBatch 0)
           ++ [.fetchResults 0]
           ++ oracle.queryIds.map (fun rid => .fetchResultSet 0 rid),
         .ok ((oracle.queryIds.map oracle.idResult).flatten)) := by
  unfold bulk_operation
  rw [if_pos hop]

theorem bulk_operation_fst_head (operation objectName : String) (data : List α)
    (queryStr : String) (use_serial : Bool) (ext : Option String) (batch_size : Nat)
    (oracle : BulkOracle β) :
    ((bulk_operation operation objectName data queryStr use_serial ext batch_size
        oracle).1)[0]?
      = some (.createJob (mkJobPayload operation objectName use_serial ext)) := by
  by_cases hq : operation = "query" ∨ operation = "queryAll"
  · rw [bulk_operation_query_eq operation objectName data queryStr use_serial ext
      batch_size oracle hq]
    rfl
  · by_cases h0 : effBatchSize data.length batch_size = 0
    · rw [bulk_operation_mut_eq_zero operation objectName data queryStr use_serial ext
        batch_size oracle hq h0]
      rfl
    · cases hch : codeChunks (effBatchSize data.length batch_size) data with
      | nil =>
        rw [bulk_operation_mut_eq_empty operation objectName data queryStr use_serial ext
          batch_size oracle hq h0 hch]
        rfl
      | cons c cs =>
        rw [bulk_operation_mut_eq_crash operation objectName data queryStr use_serial ext
          batch_size oracle hq h0 hch]
        rfl

theorem filterMap_batchOf_map_addBatch (chunks : List (List α)) :
    (chunks.map (fun c => (BulkEv.addBatchRecords c : BulkEv α))).filterMap batchOf
      = chunks := by
  induction chunks with
  | nil => rfl
  | cons c cs ih => simp [List.filterMap_cons, batchOf, ih]

/-- Claim C2 (code defect): the mutation branch does partition the input in
order into chunks of size `min(batchSize, 10000)` and submits one batch per
chunk — `ceil(N / min(batchSize, 10000))` of them — but the claimed result
concatenation never happens: with at least one batch, draining `pool.map`
raises `TypeError` over the never-awaited `worker` coroutines, so every
nonempty mutation call ends in that error instead of returning results. -/
theorem c2_bulk_mutation_batching (operation objectName : String) (data : List α)
    (use_serial : Bool) (ext : Option String) (batch_size : Nat) (oracle : BulkOracle β)
    (hop : ¬(operation = "query" ∨ operation = "queryAll")) (hbs : 1 ≤ batch_size)
    (hne : data ≠ []) :
    (bulk_operation operation objectName data "" use_serial ext batch_size oracle).1
      = [.createJob (mkJobPayload operation objectName use_serial ext)]
          ++ ((chunkList (min batch_size 10000) data).map fun ch => .addBatchRecords ch)
    ∧ ((bulk_operation operation objectName data "" use_serial ext batch_size
        oracle).1.filterMap batchOf)
      = chunkList (min batch_size 10000) data
    ∧ ((bulk_operation operation objectName data "" use_serial ext batch_size
        oracle).1.filterMap batchOf).length
      = ceilDiv data.length (min batch_size 10000)
    ∧ (bulk_operation operation objectName data "" use_serial ext batch_size oracle).2
      = .error .typeError := by
  have hmin : 1 ≤ min batch_size 10000 := by omega
  have heff : 1 ≤ effBatchSize data.length batch_size := effBatchSize_pos data.length hbs
  have hchunks : codeChunks (effBatchSize data.length batch_size) data
      = chunkList (min batch_size 10000) data := by
    rw [codeChunks_eq_chunkList heff data, chunkList_effBatchSize hbs data]
  have hne2 : chunkList (min batch_size 10000) data ≠ [] := chunkList_ne_nil hmin hne
  rcases hl : chunkList (min batch_size 10000) data with _ | ⟨c, cs⟩
  · exact absurd hl hne2
  have hch : codeChunks (effBatchSize data.length batch_size) data = c :: cs := by
    rw [hchunks, hl]
  have hfm : (([(BulkEv.createJob (mkJobPayload operation objectName use_serial ext)
        : BulkEv α)] ++ ((c :: cs).map fun ch => BulkEv.addBatchRecords ch)).filterMap
        batchOf)
      = c :: cs := by
    rw [List.filterMap_append, filterMap_batchOf_map_addBatch]
    rfl
  have hlen := chunkList_length hmin data
  rw [hl] at hlen
  simp only [bulk_operation_mut_eq_crash operation objectName data "" use_serial ext
    batch_size oracle hop (by omega) hch]
  refine ⟨trivial, by rw [hfm], ?_, trivial⟩
  rw [hfm]
  exact hlen

/-- Witness for C2 at a concrete failing input: three records with batch
size two are submitted as the in-order chunks `[[1,2],[3]]` (two batches,
the ceiling of 3/2), and the call ends in the coroutine `TypeError` with
no result. -/
theorem c2_witness :
    (bulk_operation "insert" "Contact" [1, 2, 3] "" false none 2 fxOracle).1
      = [.createJob (mkJobPayload "insert" "Contact" false none)]
          ++ ((chunkList (min 2 10000) [1, 2, 3]).map fun ch => .addBatchRecords ch)
    ∧ ((bulk_operation "insert" "Contact" [1, 2, 3] "" false none 2 fxOracle).1.filterMap
        batchOf)
      = chunkList (min 2 10000) [1, 2, 3]
    ∧ ((bulk_operation "insert" "Contact" [1, 2, 3] "" false none 2 fxOracle).1.filterMap
        batchOf).length
      = ceilDiv ([1, 2, 3] : List Nat).length (min 2 10000)
    ∧ (bulk_operation "insert" "Contact" [1, 2, 3] "" false none 2 fxOracle).2
      = .error .typeError :=
  c2_bulk_mutation_batching "insert" "Contact" [1, 2, 3] false none 2 fxOracle
    (by decide) (by decide) (by decide)

/-- Claim C7 (code defect): in the query branch the job close is the third
request, issued strictly before any batch polling or result fetching; in
the mutation branch a nonempty input never reaches the close at all — the
call raises `TypeError` right after batch submission, with no poll event
and no close event in its trace. -/
theorem c7_close_ordering (operation objectName : String) (data : List α)
    (queryStr : String) (use_serial : Bool) (ext : Option String) (batch_size : Nat)
    (oracle : BulkOracle β) :
    ((operation = "query" ∨ operation = "queryAll") →
       (bulk_operation operation objectName data queryStr use_serial ext batch_size
           oracle).1.take 3
         = [.createJob (mkJobPayload operation objectName use_serial ext),
            .addBatchQuery queryStr, .closeJob]
       ∧ (bulk_operation operation objectName data queryStr use_serial ext batch_size
           oracle).1.drop 3
         = List.replicate (oracle.pendingPolls 0 + 1) (.pollBatch 0) ++ [.fetchResults 0]
             ++ oracle.queryIds.map (fun rid => .fetchResultSet 0 rid))
    ∧ (¬(operation = "query" ∨ operation = "queryAll") → 1 ≤ batch_size → data ≠ [] →
       BulkEv.closeJob ∉ (bulk_operation operation objectName data queryStr use_serial ext
           batch_size oracle).1
       ∧ (∀ i, BulkEv.pollBatch i ∉ (bulk_operation operation objectName data queryStr
           use_serial ext batch_size oracle).1)
       ∧ (bulk_operation operation objectName data queryStr use_serial ext batch_size
           oracle).2 = .error .typeError) := by
  constructor
  · intro hop
    rw [bulk_operation_query_eq operation objectName data queryStr use_serial ext
      batch_size oracle hop]
    constructor
    · simp [List.append_assoc]
    · simp [List.append_assoc]
  · intro hop hbs hne
    have heff : 1 ≤ effBatchSize data.length batch_size := effBatchSize_pos data.length hbs
    have hne2 : chunkList (effBatchSize data.length batch_size) data ≠ [] :=
      chunkList_ne_nil heff hne
    have h1 : codeChunks (effBatchSize data.length batch_size) data
        = chunkList (effBatchSize data.length batch_size) data :=
      codeChunks_eq_chunkList heff data
    rcases hl : chunkList (effBatchSize data.length batch_size) data with _ | ⟨c, cs⟩
    · exact absurd hl hne2
    have hch : codeChunks (effBatchSize data.length batch_size) data = c :: cs := by
      rw [h1, hl]
    simp only [bulk_operation_mut_eq_crash operation objectName data queryStr use_serial
      ext batch_size oracle hop (by omega) hch]
    refine ⟨?_, ?_, trivial⟩
    · intro hmem
      simp at hmem
    · intro i hmem
      simp at hmem

/-- Witness for C7: a concrete query call closes as its third request with
all polling after it; a concrete one-record insert issues no close and no
poll at all and ends in the coroutine `TypeError`. -/
theorem c7_witness :
    ((bulk_operation "query" "Lead" ([] : List Nat) "SELECT Id FROM Lead" false none 1
        fxOracle).1.take 3
      = [.createJob (mkJobPayload "query" "Lead" false none),
         .addBatchQuery "SELECT Id FROM Lead", .closeJob])
    ∧ ((bulk_operation "query" "Lead" ([] : List Nat) "SELECT Id FROM Lead" false none 1
        fxOracle).1.drop 3
      = List.replicate (fxOracle.pendingPolls 0 + 1) (.pollBatch 0) ++ [.fetchResults 0]
          ++ fxOracle.queryIds.map (fun rid => .fetchResultSet 0 rid))
    ∧ BulkEv.closeJob ∉ (bulk_operation "insert" "Contact" [0] "" false none 10000
        fxOracle).1
    ∧ BulkEv.pollBatch 0 ∉ (bulk_operation "insert" "Contact" [0] "" false none 10000
        fxOracle).1
    ∧ (bulk_operation "insert" "Contact" [0] "" false none 10000 fxOracle).2
      = .error .typeError := by
  have h1 := (c7_close_ordering "query" "Lead" ([] : List Nat) "SELECT Id FROM Lead"
    false none 1 fxOracle).1 (Or.inl rfl)
  have h2 := (c7_close_ordering "insert" "Contact" [0] "" false none 10000 fxOracle).2
    (by decide) (by decide) (by decide)
  exact ⟨h1.1, h1.2, h2.1, h2.2.1 0, h2.2.2⟩

/-- Claim C8: with a positive batch size (the wrappers default to 10000) an
empty mutation input creates exactly one job and closes it, with zero
batch submissions, zero polls and zero fetches, returning the empty
result. At batch size zero the program instead raises `ZeroDivisionError`
right after the job creation, which the second conjunct records. -/
theorem c8_empty_mutation (operation objectName : String) (use_serial : Bool)
    (ext : Option String) (batch_size : Nat) (oracle : BulkOracle β)
    (hop : ¬(operation = "query" ∨ operation = "queryAll")) (hbs : 1 ≤ batch_size) :
    bulk_operation operation objectName ([] : List α) "" use_serial ext batch_size oracle
      = ([.createJob (mkJobPayload operation objectName use_serial ext), .closeJob],
         .ok ([] : List β))
    ∧ bulk_operation operation objectName ([] : List α) "" use_serial ext 0 oracle
      = ([.createJob (mkJobPayload operation objectName use_serial ext)],
         .error .zeroDivisionError) := by
  constructor
  · have h0 : ¬effBatchSize ([] : List α).length batch_size = 0 := by
      have := effBatchSize_pos ([] : List α).length hbs
      omega
    exact bulk_operation_mut_eq_empty operation objectName ([] : List α) "" use_serial ext
      batch_size oracle hop h0 (codeChunks_nil _)
  · exact bulk_operation_mut_eq_zero operation objectName ([] : List α) "" use_serial ext
      0 oracle hop rfl

/-- Witness for C8: an empty insert call (default batch size 10000) issues
exactly the job-creation and job-close requests and returns the empty
result; with batch size zero it stops at the job creation with the
division error. -/
theorem c8_witness :
    bulk_operation "insert" "Account" ([] : List Nat) "" false none 10000 fxOracle
      = ([.createJob (mkJobPayload "insert" "Account" false none), .closeJob],
         .ok ([] : List Nat))
    ∧ bulk_operation "insert" "Account" ([] : List Nat) "" false none 0 fxOracle
      = ([.createJob (mkJobPayload "insert" "Account" false none)],
         .error .zeroDivisionError) :=
  c8_empty_mutation "insert" "Account" false none 10000 fxOracle (by decide) (by decide)

/-- Claim C9: calling upsert without the external id field fails with the
caller-side configuration error (Python's TypeError for the missing
required positional argument) instead of any network call; every upsert
job-creation payload contains `externalIdFieldName` (and the job creation
is the first request); no non-upsert payload does. -/
theorem c9_upsert_requires_external_id (objectName : String) (data : List α)
    (batch_size : Nat) (use_serial : Bool) (oracle : BulkOracle β) (e : String) :
    bulk_upsert objectName data none batch_size use_serial oracle
      = (.error .missingRequiredArgument
          : Except CallErr (List (BulkEv α) × Except PyFault (List β)))
    ∧ bulk_upsert objectName data (some e) batch_size use_serial oracle
      = .ok (bulk_operation "upsert" objectName data "" use_serial (some e) batch_size
          oracle)
    ∧ ((bulk_operation "upsert" objectName data "" use_serial (some e) batch_size
         oracle).1)[0]?
      = some (.createJob (mkJobPayload "upsert" objectName use_serial (some e)))
    ∧ (mkJobPayload "upsert" objectName use_serial (some e)).externalIdFieldName
      = some (some e)
    ∧ (∀ op : String, op ≠ "upsert" →
        (mkJobPayload op objectName use_serial (some e)).externalIdFieldName = none) := by
  refine ⟨rfl, rfl,
    bulk_operation_fst_head "upsert" objectName data "" use_serial (some e) batch_size
      oracle, rfl, ?_⟩
  intro op hop
  unfold mkJobPayload
  simp [hop]

/-- Witness for C9 at concrete inputs, including that an insert payload
carries no `externalIdFieldName`. -/
theorem c9_witness :
    bulk_upsert "Contact" [1, 2] none 10000 false fxOracle
      = (.error .missingRequiredArgument
          : Except CallErr (List (BulkEv Nat) × Except PyFault (List Nat)))
    ∧ bulk_upsert "Contact" [1, 2] (some "Ext_Id__c") 10000 false fxOracle
      = .ok (bulk_operation "upsert" "Contact" [1, 2] "" false (some "Ext_Id__c") 10000
          fxOracle)
    ∧ ((bulk_operation "upsert" "Contact" [1, 2] "" false (some "Ext_Id__c") 10000
         fxOracle).1)[0]?
      = some (.createJob (mkJobPayload "upsert" "Contact" false (some "Ext_Id__c")))
    ∧ (mkJobPayload "upsert" "Contact" false (some "Ext_Id__c")).externalIdFieldName
      = some (some "Ext_Id__c")
    ∧ (mkJobPayload "insert" "Contact" false (some "Ext_Id__c")).externalIdFieldName
      = none := by
  have h := c9_upsert_requires_external_id "Contact" [1, 2] 10000 false fxOracle
    "Ext_Id__c"
  exact ⟨h.1, h.2.1, h.2.2.1, h.2.2.2.1, h.2.2.2.2 "insert" (by decide)⟩

end SimpleSalesforce
